import Mathlib

/-!
Shallow embedding of `src/app/species/species-details-dialog.tsx`
(BiodiversityHub): the Zod species schema, the form-submission pipeline
(react-hook-form `handleSubmit` + `zodResolver`), the `onSubmit`,
`handleDelete`, `startEditing` and `handleCancel` handlers, the per-field
read-only rendering flags, and a small event machine for the re-entrancy
question.  JavaScript strings are Lean `String`s, JS numbers are modelled
as `JSNumber` (a rational or NaN), `null` is `Option.none`.
-/

namespace BiodiversityHub

/-- JS `String.prototype.trim` on a character list: drop whitespace from
both ends. -/
def trimChars (l : List Char) : List Char :=
  (((l.dropWhile Char.isWhitespace).reverse.dropWhile Char.isWhitespace)).reverse

/-- JS `String.prototype.trim` (also the semantics of Zod's `.trim()`). -/
def jsTrim (s : String) : String :=
  String.mk (trimChars s.data)

/-- Scheme rule of the WHATWG URL parser: one ASCII letter, then letters,
digits, `+`, `-` or `.`, then a colon.  `new URL(x)` (hence Zod's `.url()`)
rejects any input without such a scheme. -/
def schemeOk : List Char → Bool
  | [] => false
  | c :: rest => c.isAlpha && schemeTail rest
where
  schemeTail : List Char → Bool
  | [] => false
  | c :: rest =>
      if c = ':' then true
      else (c.isAlphanum || c = '+' || c = '-' || c = '.') && schemeTail rest

/-- Model of Zod's `.url()` check, which defers to the WHATWG `URL`
constructor: surrounding whitespace is stripped, then the input must start
with a valid scheme followed by `:`.  (Only the scheme requirement is
modelled; it is the part the claims exercise, and it already makes the
empty and whitespace-only strings invalid.) -/
def isValidURL (s : String) : Bool :=
  schemeOk (trimChars s.data)

/-- JS numbers as seen by the form: either NaN or an exact rational. -/
inductive JSNumber where
  | nan : JSNumber
  | num (q : ℚ) : JSNumber
deriving DecidableEq, Repr

/-- Value of a list of decimal digit characters, `none` if any character
is not a digit or the list is empty. -/
def digitsVal : List Char → Option ℕ
  | [] => none
  | l => go l 0
where
  go : List Char → ℕ → Option ℕ
  | [], acc => some acc
  | c :: rest, acc =>
      if c.isDigit then go rest (acc * 10 + (c.toNat - '0'.toNat)) else none

/-- Split a character list at the first `.`, returning the part before it
and, when a dot is present, the part after it. -/
def splitDot : List Char → List Char × Option (List Char)
  | [] => ([], none)
  | c :: rest =>
      if c = '.' then ([], some rest)
      else
        let (pre, post) := splitDot rest
        (c :: pre, post)

/-- Unsigned decimal literal `digits`, `digits.digits`, `digits.` or
`.digits` to a rational; `none` when malformed. -/
def decimalVal (l : List Char) : Option ℚ :=
  match splitDot l with
  | (intPart, none) => (digitsVal intPart).map (fun n => (n : ℚ))
  | ([], some []) => none
  | (intPart, some fracPart) =>
      let ip : Option ℕ := if intPart = [] then some 0 else digitsVal intPart
      let fp : Option ℚ :=
        if fracPart = [] then some 0
        else (digitsVal fracPart).map (fun n => (n : ℚ) / (10 : ℚ) ^ fracPart.length)
      match ip, fp with
      | some i, some f => some ((i : ℚ) + f)
      | _, _ => none

/-- JS `ToNumber` on a string, the semantics of the unary `+` in
`field.onChange(+event.target.value)`: surrounding whitespace is stripped;
the empty string converts to `0`; an optional sign followed by a decimal
literal converts to its value; anything else is NaN.  (Hex, binary,
exponent and `Infinity` forms are omitted; the claims only exercise the
empty string, plain decimals and non-numeric garbage.) -/
def toNumber (s : String) : JSNumber :=
  match trimChars s.data with
  | [] => JSNumber.num 0
  | '-' :: rest => signedBody rest true
  | '+' :: rest => signedBody rest false
  | l => signedBody l false
where
  signedBody (l : List Char) (neg : Bool) : JSNumber :=
    match decimalVal l with
    | none => JSNumber.nan
    | some q => JSNumber.num (if neg then -q else q)

/-- The six fixed kingdoms of `const kingdoms = z.enum([...])`. -/
def kingdoms : List String :=
  ["Animalia", "Plantae", "Fungi", "Protista", "Archaea", "Bacteria"]

/-- The raw values held by the form (`useForm<FormData>` field values):
text inputs hold strings or null, the population input holds a JS number
or null, the kingdom select holds a string. -/
structure Draft where
  scientific_name : String
  common_name : Option String
  kingdom : String
  total_population : Option JSNumber
  image : Option String
  description : Option String
deriving DecidableEq, Repr

/-- The normalized payload produced by a successful `speciesSchema` parse
(`type FormData = z.infer<typeof speciesSchema>`). -/
structure FormData where
  scientific_name : String
  common_name : Option String
  kingdom : String
  total_population : Option ℚ
  image : Option String
  description : Option String
deriving DecidableEq, Repr

/-- The field names of the schema, used to report field-scoped errors. -/
inductive Field where
  | scientific_name
  | common_name
  | kingdom
  | total_population
  | image
  | description
deriving DecidableEq, Repr

/-- `scientific_name: z.string().trim().min(1).transform(v => v?.trim())`:
Zod trims, requires length ≥ 1, then the transform trims again.  `none`
is a validation failure. -/
def vScientificName (s : String) : Option String :=
  let t := jsTrim s
  if 1 ≤ t.length then some (jsTrim t) else none

/-- The shared transform of the nullable text fields
(`common_name`, `image` after its URL check, `description`):
`(val) => (!val || val.trim() === "" ? null : val.trim())`.
In JS `!val` is true for `null` and for the empty string. -/
def normNullableText : Option String → Option String
  | none => none
  | some s => if s = "" ∨ jsTrim s = "" then none else some (jsTrim s)

/-- `common_name: z.string().nullable().transform(...)`: any string or
null is accepted, then normalized.  (Also `description`, whose schema is
identical.) -/
def vCommonName (v : Option String) : Option String :=
  normNullableText v

/-- `total_population: z.number().int().positive().min(1).nullable()`:
null passes through; NaN is rejected by `z.number()`; a number must be an
integer, `> 0` and `≥ 1`.  Outer `none` is a validation failure. -/
def vPopulation : Option JSNumber → Option (Option ℚ)
  | none => some none
  | some JSNumber.nan => none
  | some (JSNumber.num q) =>
      if q.den = 1 ∧ 0 < q ∧ 1 ≤ q then some (some q) else none

/-- `image: z.string().url().nullable().transform(...)`: null skips the
string checks and the transform maps it to null; a string must first pass
the URL check, and only then is the null-coalescing/trimming transform
applied.  Outer `none` is a validation failure. -/
def vImage : Option String → Option (Option String)
  | none => some none
  | some s => if isValidURL s then some (normNullableText (some s)) else none

/-- The fields of a draft that fail their schema rule, in declaration
order of `speciesSchema`. -/
def fieldErrors (d : Draft) : List Field :=
  (if (vScientificName d.scientific_name).isNone then [Field.scientific_name] else []) ++
  (if d.kingdom ∈ kingdoms then [] else [Field.kingdom]) ++
  (if (vPopulation d.total_population).isNone then [Field.total_population] else []) ++
  (if (vImage d.image).isNone then [Field.image] else [])

/-- `speciesSchema.parse` over a draft: either the fully normalized
payload or the list of failing fields. -/
def speciesSchema (d : Draft) : Except (List Field) FormData :=
  if fieldErrors d = [] then
    Except.ok
      { scientific_name := (vScientificName d.scientific_name).getD ""
        common_name := vCommonName d.common_name
        kingdom := d.kingdom
        total_population := (vPopulation d.total_population).getD none
        image := (vImage d.image).getD none
        description := normNullableText d.description }
  else
    Except.error (fieldErrors d)

/-- Re-embed a normalized payload as raw form values — what the form holds
after `form.reset(input)` — so that the schema can be run on it again. -/
def toDraft (p : FormData) : Draft :=
  { scientific_name := p.scientific_name
    common_name := p.common_name
    kingdom := p.kingdom
    total_population := p.total_population.map JSNumber.num
    image := p.image
    description := p.description }

/-- Result of a remote Supabase call: `{ error }` is either null or an
error descriptor. -/
inductive RemoteOutcome where
  | ok
  | error
deriving DecidableEq, Repr

/-- The user-visible notices the component can emit: the two toasts of
`onSubmit`, the `alert` and success toast of `handleDelete`, and the
destructive toast of the author-name fetch. -/
inductive Notice where
  | successToast
  | errorToast
  | alertBox
  | deleteSuccessToast
deriving DecidableEq, Repr

/-- The component state the handlers touch: the `isEditing` flag, the
form's current values (draft), the form's default values (the snapshot
the draft is reset to on cancel), and the per-field validation errors
attached by the resolver. -/
structure CState where
  isEditing : Bool
  snapshot : FormData
  draft : Draft
  errors : List Field
deriving DecidableEq, Repr

/-- Everything observable from running one handler: the state afterwards,
the update payloads sent to the remote store, whether a remote delete was
issued, the notices emitted, and whether `router.refresh()` was called. -/
structure HandlerResult where
  state : CState
  updates : List FormData
  deleteIssued : Bool
  notices : List Notice
  refreshed : Bool
deriving DecidableEq, Repr

/-- `onSubmit` (lines 115-138): issue the update; on error, toast
destructive and return (state untouched); on success, leave edit mode,
`form.reset(input)` (draft and defaults both become the payload, errors
cleared), refresh, and toast success. -/
def onSubmit (s : CState) (input : FormData) (outcome : RemoteOutcome) :
    HandlerResult :=
  match outcome with
  | RemoteOutcome.error =>
      { state := s, updates := [input], deleteIssued := false
        notices := [Notice.errorToast], refreshed := false }
  | RemoteOutcome.ok =>
      { state := { isEditing := false, snapshot := input,
                   draft := toDraft input, errors := [] }
        updates := [input], deleteIssued := false
        notices := [Notice.successToast], refreshed := true }

/-- `form.handleSubmit(onSubmit)` (line 185) with the `zodResolver`
(line 110): run the schema over the draft; on failure attach the field
errors and stop — `onSubmit` never runs and no request is issued; on
success clear the errors and run `onSubmit` on the normalized payload. -/
def handleSubmit (s : CState) (outcome : RemoteOutcome) : HandlerResult :=
  match speciesSchema s.draft with
  | Except.error errs =>
      { state := { s with errors := errs }, updates := [], deleteIssued := false
        notices := [], refreshed := false }
  | Except.ok input =>
      onSubmit { s with errors := [] } input outcome

/-- `handleDelete` (lines 154-171): if the confirm prompt is declined,
nothing happens.  If confirmed, the delete is issued; an error adds an
`alert`, but the handler then unconditionally refreshes, leaves edit mode
and emits the deletion-success toast. -/
def handleDelete (s : CState) (confirmed : Bool) (outcome : RemoteOutcome) :
    HandlerResult :=
  if confirmed then
    { state := { s with isEditing := false }
      updates := [], deleteIssued := true
      notices :=
        (match outcome with
         | RemoteOutcome.error => [Notice.alertBox]
         | RemoteOutcome.ok => []) ++ [Notice.deleteSuccessToast]
      refreshed := true }
  else
    { state := s, updates := [], deleteIssued := false
      notices := [], refreshed := false }

/-- `startEditing` (lines 140-143): enter edit mode. -/
def startEditing (s : CState) : CState :=
  { s with isEditing := true }

/-- `handleCancel` (lines 145-152): if the confirm prompt is declined,
nothing happens; otherwise reset the draft to the defaults and leave edit
mode. -/
def handleCancel (s : CState) (confirmed : Bool) : CState :=
  if confirmed then
    { s with draft := toDraft s.snapshot, isEditing := false, errors := [] }
  else s

/-- The `readOnly` prop each field input is rendered with, from the JSX:
the five `Input`/`Textarea` fields get `readOnly={!isEditing}`; the
kingdom `Select` (lines 217-243) has no read-only or disabled prop, so it
is interactive regardless of `isEditing`. -/
def fieldReadOnly (isEditing : Bool) : Field → Bool
  | Field.kingdom => false
  | _ => !isEditing

/-- States of the four-state controller of the spec, used to relate the
code's single `isEditing` flag to the spec's wording.  The code keeps
`isEditing = true` throughout an in-flight submit and `isEditing = false`
throughout an in-flight delete, so `Editing`/`Submitting` map to `true`
and `Viewing`/`Deleting` map to `false`. -/
def specEditingOrSubmitting (isEditing : Bool) : Prop :=
  isEditing = true

/-- Abstract event machine for the re-entrancy question.  `inFlight`
counts outstanding remote update/delete requests; `draftValid` is whether
the current draft passes the schema; `issuedWhileBusy` records that some
request was issued while another was still outstanding.  Button clicks
are only effective when the corresponding button is rendered: delete only
outside edit mode, submit/cancel only inside it.  No handler consults
`inFlight` — the code has no such guard. -/
structure MState where
  isEditing : Bool
  draftValid : Bool
  inFlight : ℕ
  issuedWhileBusy : Bool
deriving DecidableEq, Repr

/-- User and completion events for the event machine. -/
inductive Ev where
  | clickEdit
  | clickCancel (confirmed : Bool)
  | clickDelete (confirmed : Bool)
  | clickSubmit
  | resolveDelete (err : Bool)
  | resolveSubmit (err : Bool)
deriving DecidableEq, Repr

/-- One step of the event machine, mirroring which buttons the JSX
renders in each state and what each handler does before/after its await
point. -/
def mstep (s : MState) : Ev → MState
  | Ev.clickEdit =>
      if s.isEditing then s else { s with isEditing := true }
  | Ev.clickCancel c =>
      if s.isEditing && c then { s with isEditing := false } else s
  | Ev.clickDelete c =>
      if !s.isEditing && c then
        { s with inFlight := s.inFlight + 1
                 issuedWhileBusy := s.issuedWhileBusy || decide (0 < s.inFlight) }
      else s
  | Ev.clickSubmit =>
      if s.isEditing && s.draftValid then
        { s with inFlight := s.inFlight + 1
                 issuedWhileBusy := s.issuedWhileBusy || decide (0 < s.inFlight) }
      else s
  | Ev.resolveDelete _ =>
      { s with inFlight := s.inFlight - 1, isEditing := false }
  | Ev.resolveSubmit err =>
      { s with inFlight := s.inFlight - 1
               isEditing := if err then s.isEditing else false }

/-- Run the event machine over an event trace. -/
def mrun (s : MState) (evs : List Ev) : MState :=
  evs.foldl mstep s

/-- Initial machine state: viewing, no request outstanding, draft valid
(seeded from a valid snapshot). -/
def mInit : MState :=
  { isEditing := false, draftValid := true, inFlight := 0,
    issuedWhileBusy := false }

/-- Decidable equality of schema results, so that concrete validation
runs can be settled by `decide`. -/
instance {e a : Type} [DecidableEq e] [DecidableEq a] : DecidableEq (Except e a) :=
  fun x y => match x, y with
  | Except.ok u, Except.ok v =>
      if h : u = v then Decidable.isTrue (by rw [h])
      else Decidable.isFalse (by intro hh; cases hh; exact h rfl)
  | Except.error u, Except.error v =>
      if h : u = v then Decidable.isTrue (by rw [h])
      else Decidable.isFalse (by intro hh; cases hh; exact h rfl)
  | Except.ok _, Except.error _ => Decidable.isFalse (by intro hh; cases hh)
  | Except.error _, Except.ok _ => Decidable.isFalse (by intro hh; cases hh)

/-! ### Sample data -/

/-- A concrete valid snapshot (the normalized lion record of the spec's
scenario section). -/
def sampleSnapshot : FormData :=
  { scientific_name := "Panthera leo", common_name := none,
    kingdom := "Animalia", total_population := some 20000,
    image := none, description := none }

/-- The form values seeded from `sampleSnapshot`. -/
def sampleDraft : Draft := toDraft sampleSnapshot

/-- An edit session on the lion record, in edit mode with a clean draft. -/
def editingState : CState :=
  { isEditing := true, snapshot := sampleSnapshot, draft := sampleDraft,
    errors := [] }

/-- The same session after the kingdom value was corrupted to a value
outside the enum. -/
def invalidState : CState :=
  { editingState with draft := { sampleDraft with kingdom := "Mineralia" } }

/-- `onChange` of the total-population input (lines 254-260):
`field.onChange(+event.target.value)` — the raw input string is coerced
with unary plus and stored; the stored value is always a JS number, never
null. -/
def populationOnChange (s : String) : Option JSNumber :=
  some (toNumber s)

/-! ### Helper lemmas -/

/-- `trimChars` is dropping whitespace on the left, then on the right. -/
lemma trimChars_eq_rdropWhile (l : List Char) :
    trimChars l =
      List.rdropWhile Char.isWhitespace (l.dropWhile Char.isWhitespace) := rfl

/-- Trimming an already-trimmed character list does nothing. -/
lemma trimChars_idem (l : List Char) : trimChars (trimChars l) = trimChars l := by
  simp only [trimChars_eq_rdropWhile]
  set p := Char.isWhitespace with hp
  set a := l.dropWhile p with ha
  have h1 : (List.rdropWhile p a).dropWhile p = List.rdropWhile p a := by
    rw [List.dropWhile_eq_self_iff]
    intro hl
    have hpre : List.rdropWhile p a <+: a := List.rdropWhile_prefix p a
    have hlen : 0 < a.length := lt_of_lt_of_le hl (hpre.length_le)
    have hget : (List.rdropWhile p a).get ⟨0, hl⟩ = a.get ⟨0, hlen⟩ := by
      simpa using hpre.getElem hl
    rw [hget]
    exact List.dropWhile_get_zero_not p l hlen
  rw [h1, List.rdropWhile_idempotent]

/-- `jsTrim` is idempotent. -/
lemma jsTrim_idem (s : String) : jsTrim (jsTrim s) = jsTrim s := by
  simp only [jsTrim]
  exact congrArg String.mk (trimChars_idem s.data)

/-- A string whose trim is nonempty has `jsTrim` fixed by `jsTrim`. -/
lemma jsTrim_data (s : String) : (jsTrim s).data = trimChars s.data := rfl

/-- `vScientificName` output revalidates to itself. -/
lemma vScientificName_idem (s t : String) (h : vScientificName s = some t) :
    vScientificName t = some t := by
  simp only [vScientificName] at h ⊢
  by_cases hlen : 1 ≤ (jsTrim s).length
  · rw [if_pos hlen] at h
    have ht : t = jsTrim (jsTrim s) := (Option.some_injective _ h).symm
    subst ht
    simp only [jsTrim_idem]
    rw [if_pos hlen]
  · rw [if_neg hlen] at h
    exact absurd h (by simp)

/-- The null-coalescing/trimming transform is idempotent. -/
lemma normNullableText_idem (v : Option String) :
    normNullableText (normNullableText v) = normNullableText v := by
  match v with
  | none => rfl
  | some s =>
      simp only [normNullableText]
      by_cases hc : s = "" ∨ jsTrim s = ""
      · rw [if_pos hc]
      · rw [if_neg hc]
        have hne : ¬ jsTrim s = "" := fun h => hc (Or.inr h)
        simp only [normNullableText, jsTrim_idem, or_self, if_neg hne]

/-- `vPopulation` output revalidates to itself. -/
lemma vPopulation_idem (v : Option JSNumber) (w : Option ℚ)
    (h : vPopulation v = some w) :
    vPopulation (w.map JSNumber.num) = some w := by
  match v with
  | none =>
      simp only [vPopulation] at h
      have : w = none := (Option.some_injective _ h).symm
      subst this
      rfl
  | some JSNumber.nan => exact absurd h (by simp [vPopulation])
  | some (JSNumber.num q) =>
      simp only [vPopulation] at h
      by_cases hc : q.den = 1 ∧ 0 < q ∧ 1 ≤ q
      · rw [if_pos hc] at h
        have : w = some q := (Option.some_injective _ h).symm
        subst this
        show vPopulation (some (JSNumber.num q)) = some (some q)
        simp only [vPopulation, if_pos hc]
      · rw [if_neg hc] at h
        exact absurd h (by simp)

/-- A string accepted by the URL check stays accepted after trimming. -/
lemma isValidURL_jsTrim (s : String) : isValidURL (jsTrim s) = isValidURL s := by
  simp only [isValidURL, jsTrim_data, trimChars_idem]

/-- A string accepted by the URL check does not trim to the empty string
(the scheme rule needs at least one letter and a colon). -/
lemma isValidURL_trim_ne_empty (s : String) (h : isValidURL s = true) :
    jsTrim s ≠ "" := by
  intro hemp
  have hd : trimChars s.data = [] := by
    have := congrArg String.data hemp
    simpa [jsTrim_data] using this
  rw [isValidURL, hd] at h
  simp [schemeOk] at h

/-- `vImage` output revalidates to itself. -/
lemma vImage_idem (v : Option String) (w : Option String)
    (h : vImage v = some w) : vImage w = some w := by
  match v with
  | none =>
      simp only [vImage] at h
      have : w = none := (Option.some_injective _ h).symm
      subst this
      rfl
  | some s =>
      simp only [vImage] at h
      by_cases hu : isValidURL s = true
      · rw [if_pos hu] at h
        have hw : w = normNullableText (some s) := (Option.some_injective _ h).symm
        by_cases hc : s = "" ∨ jsTrim s = ""
        · rw [hw]
          simp only [normNullableText, if_pos hc]
          rfl
        · have hwval : w = some (jsTrim s) := by
            rw [hw]; simp only [normNullableText, if_neg hc]
          subst hwval
          have hu2 : isValidURL (jsTrim s) = true := by
            rw [isValidURL_jsTrim]; exact hu
          have hne : ¬ jsTrim s = "" := fun hh => hc (Or.inr hh)
          simp only [vImage, if_pos hu2, normNullableText, jsTrim_idem, or_self,
            if_neg hne]
      · rw [if_neg (by simpa using hu)] at h
        exact absurd h (by simp)

/-- An `if isNone then [f] else []` summand of `fieldErrors` that is empty
forces the option to be `some`. -/
lemma if_isNone_nil {α : Type} (o : Option α) (f : Field)
    (h : (if o.isNone then [f] else []) = []) : ∃ x, o = some x := by
  by_cases hc : o.isNone
  · rw [if_pos hc] at h
    exact absurd h (by simp)
  · match o with
    | some x => exact ⟨x, rfl⟩
    | none => exact absurd rfl hc

/-- An empty `fieldErrors` means every field rule succeeded. -/
lemma fieldErrors_nil (d : Draft) (h : fieldErrors d = []) :
    (∃ sn, vScientificName d.scientific_name = some sn) ∧
    d.kingdom ∈ kingdoms ∧
    (∃ tp, vPopulation d.total_population = some tp) ∧
    (∃ im, vImage d.image = some im) := by
  rw [fieldErrors] at h
  have h4 := (List.append_eq_nil.mp h).2
  have habc := (List.append_eq_nil.mp h).1
  have h3 := (List.append_eq_nil.mp habc).2
  have hab := (List.append_eq_nil.mp habc).1
  have h1 := (List.append_eq_nil.mp hab).1
  have h2 := (List.append_eq_nil.mp hab).2
  refine ⟨if_isNone_nil _ _ h1, ?_, if_isNone_nil _ _ h3, if_isNone_nil _ _ h4⟩
  by_cases hk : d.kingdom ∈ kingdoms
  · exact hk
  · rw [if_neg hk] at h2
    exact absurd h2 (by simp)

/-- Unpack a successful schema parse into the per-field facts. -/
lemma speciesSchema_ok_elim (d : Draft) (p : FormData)
    (h : speciesSchema d = Except.ok p) :
    fieldErrors d = [] ∧
    vScientificName d.scientific_name = some p.scientific_name ∧
    normNullableText d.common_name = p.common_name ∧
    d.kingdom = p.kingdom ∧
    vPopulation d.total_population = some p.total_population ∧
    vImage d.image = some p.image ∧
    normNullableText d.description = p.description := by
  by_cases hnil : fieldErrors d = []
  · obtain ⟨⟨sn, hsn⟩, _, ⟨tp, htp⟩, ⟨im, him⟩⟩ := fieldErrors_nil d hnil
    rw [speciesSchema, if_pos hnil] at h
    have hp := Except.ok.inj h
    refine ⟨hnil, ?_, ?_, ?_, ?_, ?_, ?_⟩
    · rw [← hp]
      simp [hsn]
    · rw [← hp]
      rfl
    · rw [← hp]
    · rw [← hp]
      simp [htp]
    · rw [← hp]
      simp [him]
    · rw [← hp]
  · rw [speciesSchema, if_neg hnil] at h
    exact absurd h (by simp)

/-! ### Claims -/

/-- Claim C1 (code-bug evidence): in `handleDelete`, a confirmed delete
whose remote call fails does not leave the state unchanged — the alert is
surfaced, but the handler still refreshes the page data, still exits edit
mode, and still emits the deletion-success toast.  The spec requires that
on delete failure only an alert is surfaced and state stays unchanged. -/
theorem handleDelete_error_still_commits (s : CState) :
    handleDelete s true RemoteOutcome.error =
      { state := { s with isEditing := false }, updates := [],
        deleteIssued := true,
        notices := [Notice.alertBox, Notice.deleteSuccessToast],
        refreshed := true } := rfl

/-- Claim C2 (counterexample): an empty-string image input does not
validate to null — the URL check of `speciesSchema.image` runs before the
null-coalescing transform, so validation fails with an image-scoped
error. -/
theorem speciesSchema_image_empty_fails :
    speciesSchema { sampleDraft with image := some "" } =
      Except.error [Field.image] := by decide

/-- Claim C2 (amended): for the nullable text fields `common_name` and
`description` validation succeeds on any string input — whitespace-only
or empty input normalizes to null, other input is trimmed.  For `image`,
a string input is accepted only when it passes the URL check (and is then
trimmed); an empty or whitespace-only string fails the URL check and is
rejected rather than normalized to null. -/
theorem nullable_text_normalization :
    (∀ s : String, jsTrim s = "" →
      vCommonName (some s) = none ∧ normNullableText (some s) = none) ∧
    (∀ s : String, jsTrim s ≠ "" →
      vCommonName (some s) = some (jsTrim s) ∧
      normNullableText (some s) = some (jsTrim s)) ∧
    (∀ s : String, isValidURL s = false → vImage (some s) = none) ∧
    (∀ s : String, isValidURL s = true →
      vImage (some s) = some (normNullableText (some s))) := by
  refine ⟨?_, ?_, ?_, ?_⟩
  · intro s h
    constructor <;> simp [vCommonName, normNullableText, h]
  · intro s h
    have hs : s ≠ "" := by
      intro he
      subst he
      exact h rfl
    have hc : ¬(s = "" ∨ jsTrim s = "") := by
      intro hor
      exact hor.elim hs h
    constructor <;> simp [vCommonName, normNullableText, if_neg hc]
  · intro s h
    simp [vImage, h]
  · intro s h
    simp [vImage, h]

/-- Witness for the amended C2 at concrete strings. -/
theorem nullable_text_normalization_witness :
    jsTrim "   " = "" ∧ vCommonName (some "   ") = none ∧
    jsTrim " Lion " ≠ "" ∧ vCommonName (some " Lion ") = some "Lion" ∧
    isValidURL "hello" = false ∧ vImage (some "hello") = none ∧
    isValidURL " https://x.y " = true ∧
    vImage (some " https://x.y ") = some (some "https://x.y") := by
  have h1 := (nullable_text_normalization.1 "   " (by decide)).1
  have h2 := (nullable_text_normalization.2.1 " Lion " (by decide)).1
  have h3 := nullable_text_normalization.2.2.1 "hello" (by decide)
  have h4 := nullable_text_normalization.2.2.2 " https://x.y " (by decide)
  refine ⟨by decide, h1, by decide, ?_, by decide, h3, by decide, ?_⟩
  · rw [h2]
    decide
  · rw [h4]
    decide

/-- Claim C3 (counterexample): the kingdom select is rendered without any
read-only or disabled prop, so outside `Editing`/`Submitting` (here, in
`Viewing`, i.e. `isEditing = false`) it is still interactive. -/
theorem kingdom_select_never_readonly :
    fieldReadOnly false Field.kingdom = false := rfl

/-- Claim C3 (amended): every field input except the kingdom select is
rendered read-only whenever the controller is not in `Editing` or
`Submitting`; the kingdom select is never read-only. -/
theorem readonly_outside_edit_except_kingdom (b : Bool) (f : Field)
    (hf : f ≠ Field.kingdom) (hb : ¬ specEditingOrSubmitting b) :
    fieldReadOnly b f = true := by
  have hb' : b = false := by
    cases b
    · rfl
    · exact absurd rfl hb
  subst hb'
  cases f <;> first | rfl | exact absurd rfl hf

/-- Witness for the amended C3: the scientific-name input in `Viewing`. -/
theorem readonly_outside_edit_except_kingdom_witness :
    Field.scientific_name ≠ Field.kingdom ∧
    ¬ specEditingOrSubmitting false ∧
    fieldReadOnly false Field.scientific_name = true := by
  refine ⟨by decide, fun h => Bool.false_ne_true h, ?_⟩
  exact readonly_outside_edit_except_kingdom false Field.scientific_name
    (by decide) (fun h => Bool.false_ne_true h)

/-- Claim C4 (counterexample): a reachable execution with two confirmed
delete clicks issues the second remote delete while the first is still in
flight — the controller does not prevent re-entrancy. -/
theorem double_delete_overlaps :
    (mrun mInit [Ev.clickDelete true, Ev.clickDelete true]).issuedWhileBusy
      = true := by decide

/-- Claim C4 (amended): re-entrancy is not prevented by the controller:
there are reachable executions in which a second remote request is issued
before the first resolves — both with delete clicks alone and, entering
edit mode, with submit clicks alone (so update requests can overlap
too). -/
theorem reentrancy_not_prevented :
    (∃ evs : List Ev, (mrun mInit evs).issuedWhileBusy = true) ∧
    (∃ evs : List Ev, (mrun mInit evs).issuedWhileBusy = true ∧
      Ev.clickDelete true ∉ evs) := by
  constructor
  · exact ⟨[Ev.clickDelete true, Ev.clickDelete true], by decide⟩
  · exact ⟨[Ev.clickEdit, Ev.clickSubmit, Ev.clickSubmit], by decide, by decide⟩

/-- Claim C5: when the draft fails schema validation, `handleSubmit`
attaches the per-field errors and stops: no remote request is issued, no
notice is emitted, nothing is refreshed, and the rest of the state
(including `isEditing`) is untouched. -/
theorem validation_failure_aborts_submit (s : CState) (outcome : RemoteOutcome)
    (errs : List Field) (h : speciesSchema s.draft = Except.error errs) :
    handleSubmit s outcome =
      { state := { s with errors := errs }, updates := [],
        deleteIssued := false, notices := [], refreshed := false } := by
  simp only [handleSubmit, h]

/-- Witness for C5: a draft whose kingdom is outside the enum. -/
theorem validation_failure_aborts_submit_witness :
    invalidState.isEditing = true ∧
    speciesSchema invalidState.draft = Except.error [Field.kingdom] ∧
    handleSubmit invalidState RemoteOutcome.ok =
      { state := { invalidState with errors := [Field.kingdom] },
        updates := [], deleteIssued := false, notices := [],
        refreshed := false } :=
  ⟨rfl, by decide,
    validation_failure_aborts_submit invalidState RemoteOutcome.ok
      [Field.kingdom] (by decide)⟩

/-- Claim C6: a submit whose draft validates but whose remote update
fails keeps the draft unchanged, keeps the snapshot, emits the error
toast, triggers no refresh, and stays in edit mode. -/
theorem submit_remote_failure_keeps_state (s : CState) (p : FormData)
    (hE : s.isEditing = true) (h : speciesSchema s.draft = Except.ok p) :
    (handleSubmit s RemoteOutcome.error).state.isEditing = true ∧
    (handleSubmit s RemoteOutcome.error).state.draft = s.draft ∧
    (handleSubmit s RemoteOutcome.error).state.snapshot = s.snapshot ∧
    (handleSubmit s RemoteOutcome.error).updates = [p] ∧
    (handleSubmit s RemoteOutcome.error).notices = [Notice.errorToast] ∧
    (handleSubmit s RemoteOutcome.error).refreshed = false := by
  simp only [handleSubmit, h, onSubmit]
  simp [hE]

/-- Witness for C6 on the lion record in edit mode. -/
theorem submit_remote_failure_keeps_state_witness :
    editingState.isEditing = true ∧
    speciesSchema editingState.draft = Except.ok sampleSnapshot ∧
    (handleSubmit editingState RemoteOutcome.error).state.draft
      = editingState.draft ∧
    (handleSubmit editingState RemoteOutcome.error).notices
      = [Notice.errorToast] := by
  refine ⟨rfl, by decide, ?_, ?_⟩
  · exact (submit_remote_failure_keeps_state editingState sampleSnapshot rfl
      (by decide)).2.1
  · exact (submit_remote_failure_keeps_state editingState sampleSnapshot rfl
      (by decide)).2.2.2.2.1

/-- Claim C7: a submit whose draft validates and whose remote update
succeeds sends exactly the normalized payload, makes it the new snapshot,
resets the draft to it, clears the errors, leaves edit mode, emits the
success toast, and refreshes the page data. -/
theorem submit_success_commits (s : CState) (p : FormData)
    (h : speciesSchema s.draft = Except.ok p) :
    handleSubmit s RemoteOutcome.ok =
      { state := { isEditing := false, snapshot := p, draft := toDraft p,
                   errors := [] },
        updates := [p], deleteIssued := false,
        notices := [Notice.successToast], refreshed := true } := by
  simp only [handleSubmit, h, onSubmit]

/-- Witness for C7 on the lion record in edit mode. -/
theorem submit_success_commits_witness :
    speciesSchema editingState.draft = Except.ok sampleSnapshot ∧
    handleSubmit editingState RemoteOutcome.ok =
      { state := { isEditing := false, snapshot := sampleSnapshot,
                   draft := toDraft sampleSnapshot, errors := [] },
        updates := [sampleSnapshot], deleteIssued := false,
        notices := [Notice.successToast], refreshed := true } :=
  ⟨by decide, submit_success_commits editingState sampleSnapshot (by decide)⟩

/-- Claim C8: with all other fields valid, `total_population` values 0,
-1 and 2.5 fail validation with a population-scoped error, while 1 and
null validate. -/
theorem total_population_boundaries :
    speciesSchema { sampleDraft with total_population := some (JSNumber.num 0) }
      = Except.error [Field.total_population] ∧
    speciesSchema { sampleDraft with total_population := some (JSNumber.num (-1)) }
      = Except.error [Field.total_population] ∧
    speciesSchema { sampleDraft with total_population := some (JSNumber.num (5/2)) }
      = Except.error [Field.total_population] ∧
    speciesSchema { sampleDraft with total_population := some (JSNumber.num 1) }
      = Except.ok { sampleSnapshot with total_population := some 1 } ∧
    speciesSchema { sampleDraft with total_population := none }
      = Except.ok { sampleSnapshot with total_population := none } := by
  have h52 : (5/2 : ℚ) = mkRat 5 2 := by norm_num [Rat.mkRat_eq_div]
  refine ⟨by decide, by decide, ?_, by decide, by decide⟩
  rw [h52]
  decide

/-- Claim C9: validation is idempotent — running the schema on the raw
form of an already-normalized payload succeeds and returns the payload
unchanged. -/
theorem speciesSchema_idempotent (d : Draft) (p : FormData)
    (h : speciesSchema d = Except.ok p) :
    speciesSchema (toDraft p) = Except.ok p := by
  obtain ⟨hnil, hsn, hcn, hk, htp, him, hde⟩ := speciesSchema_ok_elim d p h
  have hkmem : p.kingdom ∈ kingdoms := by
    rw [← hk]
    exact (fieldErrors_nil d hnil).2.1
  have h1 : vScientificName (toDraft p).scientific_name = some p.scientific_name :=
    vScientificName_idem _ _ hsn
  have h2 : vCommonName (toDraft p).common_name = p.common_name := by
    show normNullableText p.common_name = p.common_name
    rw [← hcn, normNullableText_idem]
  have h4 : vPopulation (toDraft p).total_population = some p.total_population :=
    vPopulation_idem _ _ htp
  have h5 : vImage (toDraft p).image = some p.image := vImage_idem _ _ him
  have h6 : normNullableText (toDraft p).description = p.description := by
    show normNullableText p.description = p.description
    rw [← hde, normNullableText_idem]
  have hkmem2 : (toDraft p).kingdom ∈ kingdoms := hkmem
  have hnil2 : fieldErrors (toDraft p) = [] := by
    rw [fieldErrors, h1, h4, h5, if_pos hkmem2]
    rfl
  rw [speciesSchema, if_pos hnil2, h1, h4, h5, h2, h6]
  rfl

/-- Witness for C9 on the lion record. -/
theorem speciesSchema_idempotent_witness :
    speciesSchema sampleDraft = Except.ok sampleSnapshot ∧
    speciesSchema (toDraft sampleSnapshot) = Except.ok sampleSnapshot :=
  ⟨by decide, speciesSchema_idempotent sampleDraft sampleSnapshot (by decide)⟩

/-- Claim C10: the population input's change handler coerces the raw
string with unary plus, so clearing the field stores the number 0, which
the schema rejects; and for every input string the handler stores a JS
number, never null — null can only come from the seeded default. -/
theorem population_input_coercion :
    toNumber "" = JSNumber.num 0 ∧
    vPopulation (populationOnChange "") = none ∧
    (∀ s : String, populationOnChange s ≠ none) ∧
    (∀ d : Draft,
      Field.total_population ∈
        fieldErrors { d with total_population := populationOnChange "" }) := by
  refine ⟨rfl, by decide, ?_, ?_⟩
  · intro s h
    exact Option.noConfusion h
  · intro d
    have hv : (vPopulation (populationOnChange "")).isNone = true := by decide
    simp [fieldErrors, hv]

end BiodiversityHub
